import Mathlib

/-!
# SentimentScope — verification of the spec against the code

Shallow embedding of the SentimentScope repository
(`db_api.py`, `ml_api.py`, `import_csv.py`) in Lean 4, together with
theorems settling the frozen claims C1–C10.

Strings are modelled as `List Char`.  Python's `str.lower`, `str.strip`,
`str.title` and the regex classes `[a-zA-Z]` / `\s` are modelled over the
ASCII range (the review pipeline's regex keeps only ASCII letters, so
non-ASCII characters are dropped by the normalizer either way).
Machine floats are modelled as exact rationals `ℚ`.
External collaborators (MySQL, the pretrained classifier, BERTopic) are
modelled as explicit state / oracle functions, as the spec itself treats
them as out of scope.
-/

/-- Python `\s` (ASCII range): space, tab, newline, carriage return,
vertical tab, form feed. -/
def isPySpace (c : Char) : Bool :=
  c.toNat = 32 || c.toNat = 9 || c.toNat = 10 || c.toNat = 13 ||
  c.toNat = 11 || c.toNat = 12

/-- ASCII lowercase letter `a`–`z`. -/
def isLowerAlpha (c : Char) : Bool :=
  97 ≤ c.toNat && c.toNat ≤ 122

/-- ASCII letter, i.e. the regex class `[a-zA-Z]`. -/
def isAsciiAlpha (c : Char) : Bool :=
  (65 ≤ c.toNat && c.toNat ≤ 90) || (97 ≤ c.toNat && c.toNat ≤ 122)

/-- Python `str.lower` on one ASCII character. -/
def pyLower (c : Char) : Char :=
  if 65 ≤ c.toNat ∧ c.toNat ≤ 90 then Char.ofNat (c.toNat + 32) else c

/-- Python `str.upper` on one ASCII character. -/
def pyUpper (c : Char) : Char :=
  if 97 ≤ c.toNat ∧ c.toNat ≤ 122 then Char.ofNat (c.toNat - 32) else c

/-- Python `str.strip()`: drop leading and trailing whitespace. -/
def pyStrip (s : List Char) : List Char :=
  ((s.dropWhile isPySpace).reverse.dropWhile isPySpace).reverse

/-- One pass of `re.sub(r'\s+', ' ', ·)`: every maximal whitespace run
becomes a single `' '`.  The flag records whether we are inside a run. -/
def collapseAux : List Char → Bool → List Char
  | [], _ => []
  | c :: rest, inRun =>
    if isPySpace c then
      if inRun then collapseAux rest true
      else ' ' :: collapseAux rest true
    else c :: collapseAux rest false

/-- `re.sub(r'\s+', ' ', s)`. -/
def collapseSpaces (s : List Char) : List Char :=
  collapseAux s false

/-- `ml_api.clean_text`: return `""` for empty input or trimmed length
`< 10`; otherwise lowercase, keep only letters and whitespace
(`re.sub(r'[^a-zA-Z\s]', '', ·)`), collapse whitespace runs and strip. -/
def clean_text (s : List Char) : List Char :=
  if s = [] ∨ (pyStrip s).length < 10 then []
  else
    pyStrip (collapseSpaces
      ((s.map pyLower).filter (fun c => isAsciiAlpha c || isPySpace c)))

/-- A character allowed in a normalizer output: lowercase letter or a
single space. -/
def goodChar (c : Char) : Bool :=
  isLowerAlpha c || c == ' '

/-- No two adjacent spaces. -/
def noTwoSpaces : List Char → Bool
  | c1 :: c2 :: rest => (!(c1 == ' ' && c2 == ' ')) && noTwoSpaces (c2 :: rest)
  | _ => true

/-- The output shape promised by the spec for `clean_text`: only
lowercase letters and single spaces, no leading or trailing space. -/
def normalizedShape (s : List Char) : Bool :=
  s.all goodChar && noTwoSpaces s &&
  (match s with | [] => true | c :: _ => c != ' ') &&
  (match s.reverse with | [] => true | c :: _ => c != ' ')

example : clean_text "  Great PHONE, loud speaker!! 10/10  ".toList
    = "great phone loud speaker".toList := by decide

example : clean_text "short".toList = [] := by decide

example : normalizedShape (clean_text "  Great PHONE!! 10/10  ".toList) = true := by
  decide

/-! ## Character-level facts -/

lemma pyLower_toNat_of_upper (c : Char) (h1 : 65 ≤ c.toNat) (h2 : c.toNat ≤ 90) :
    (pyLower c).toNat = c.toNat + 32 := by
  have hv : (c.toNat + 32).isValidChar := Or.inl (by omega)
  rw [pyLower, if_pos ⟨h1, h2⟩]
  unfold Char.ofNat
  rw [dif_pos hv]
  rfl

lemma pyLower_not_upper (c : Char) :
    ¬(65 ≤ (pyLower c).toNat ∧ (pyLower c).toNat ≤ 90) := by
  by_cases h : 65 ≤ c.toNat ∧ c.toNat ≤ 90
  · rw [pyLower_toNat_of_upper c h.1 h.2]
    omega
  · rw [pyLower, if_neg h]
    exact h

lemma keepLower_of_keep_pyLower (a : Char) :
    (isAsciiAlpha (pyLower a) || isPySpace (pyLower a)) = true →
    (isLowerAlpha (pyLower a) || isPySpace (pyLower a)) = true := by
  have hup := pyLower_not_upper a
  simp only [Bool.or_eq_true]
  rintro (h | h)
  · left
    simp only [isAsciiAlpha, Bool.or_eq_true, Bool.and_eq_true, decide_eq_true_eq] at h
    simp only [isLowerAlpha, Bool.and_eq_true, decide_eq_true_eq]
    omega
  · right; exact h

lemma space_toNat : (' ' : Char).toNat = 32 := by decide

lemma goodChar_eq_space (c : Char) (h : c = ' ') : goodChar c = true := by
  subst h; decide

lemma not_space_of_not_pySpace (c : Char) (h : isPySpace c = false) : c ≠ ' ' := by
  intro hc; subst hc; simp [isPySpace] at h

lemma not_pySpace_of_lower (c : Char) (h : isLowerAlpha c = true) :
    isPySpace c = false := by
  simp only [isLowerAlpha, Bool.and_eq_true, decide_eq_true_eq] at h
  simp only [isPySpace, Bool.or_eq_false_iff, decide_eq_false_iff_not]
  omega

lemma pyLower_of_good (c : Char) (h : goodChar c = true) : pyLower c = c := by
  simp only [goodChar, Bool.or_eq_true, beq_iff_eq] at h
  rcases h with h | h
  · simp only [isLowerAlpha, Bool.and_eq_true, decide_eq_true_eq] at h
    rw [pyLower, if_neg (by omega)]
  · subst h; decide

lemma keep_of_good (c : Char) (h : goodChar c = true) :
    (isAsciiAlpha c || isPySpace c) = true := by
  simp only [goodChar, Bool.or_eq_true, beq_iff_eq] at h
  rcases h with h | h
  · simp only [isLowerAlpha, Bool.and_eq_true, decide_eq_true_eq] at h
    simp only [isAsciiAlpha, Bool.or_eq_true, Bool.and_eq_true, decide_eq_true_eq]
    omega
  · subst h; decide

lemma not_pySpace_of_good_ne_space (c : Char) (hg : goodChar c = true)
    (hne : c ≠ ' ') : isPySpace c = false := by
  simp only [goodChar, Bool.or_eq_true, beq_iff_eq] at hg
  rcases hg with h | h
  · exact not_pySpace_of_lower c h
  · exact absurd h hne

/-! ## `noTwoSpaces` transport lemmas -/

lemma noTwoSpaces_cons (c : Char) (l : List Char) :
    noTwoSpaces (c :: l) = true ↔
      ((∀ c' l', l = c' :: l' → ¬(c = ' ' ∧ c' = ' ')) ∧ noTwoSpaces l = true) := by
  cases l with
  | nil => simp [noTwoSpaces]
  | cons c' rest =>
    simp only [noTwoSpaces, Bool.and_eq_true, Bool.not_eq_true', Bool.and_eq_false_iff,
      beq_eq_false_iff_ne, ne_eq]
    constructor
    · rintro ⟨h1, h2⟩
      refine ⟨?_, h2⟩
      rintro c'' l'' heq ⟨hc, hc''⟩
      cases heq
      rcases h1 with h | h
      · exact h hc
      · exact h hc''
    · rintro ⟨h1, h2⟩
      refine ⟨?_, h2⟩
      by_cases hc : c = ' '
      · right
        intro hc'
        exact h1 c' rest rfl ⟨hc, hc'⟩
      · left; exact hc

lemma noTwoSpaces_tail (c : Char) (l : List Char)
    (h : noTwoSpaces (c :: l) = true) : noTwoSpaces l = true :=
  ((noTwoSpaces_cons c l).mp h).2

lemma noTwoSpaces_iff_chain (l : List Char) :
    noTwoSpaces l = true ↔ List.Chain' (fun a b : Char => ¬(a = ' ' ∧ b = ' ')) l := by
  induction l with
  | nil => simp [noTwoSpaces]
  | cons c rest ih =>
    cases rest with
    | nil => simp [noTwoSpaces]
    | cons c' rest' =>
      rw [List.chain'_cons, ← ih]
      simp only [noTwoSpaces, Bool.and_eq_true, Bool.not_eq_true', Bool.and_eq_false_iff,
        beq_eq_false_iff_ne, ne_eq]
      constructor
      · rintro ⟨h1, h2⟩
        refine ⟨?_, h2⟩
        rintro ⟨hc, hc'⟩
        rcases h1 with h | h
        · exact h hc
        · exact h hc'
      · rintro ⟨h1, h2⟩
        refine ⟨?_, h2⟩
        by_cases hc : c = ' '
        · right; intro hc'; exact h1 ⟨hc, hc'⟩
        · left; exact hc

lemma noTwoSpaces_reverse (l : List Char) :
    noTwoSpaces l.reverse = true ↔ noTwoSpaces l = true := by
  rw [noTwoSpaces_iff_chain, noTwoSpaces_iff_chain, List.chain'_reverse]
  constructor
  · exact fun h => h.imp (fun a b hab hba => hab ⟨hba.2, hba.1⟩)
  · exact fun h => h.imp (fun a b hab hba => hab ⟨hba.2, hba.1⟩)

lemma noTwoSpaces_dropWhile (p : Char → Bool) (l : List Char)
    (h : noTwoSpaces l = true) : noTwoSpaces (l.dropWhile p) = true := by
  induction l with
  | nil => exact h
  | cons c rest ih =>
    rw [List.dropWhile_cons]
    split
    · exact ih (noTwoSpaces_tail c rest h)
    · exact h

lemma noTwoSpaces_pyStrip (l : List Char) (h : noTwoSpaces l = true) :
    noTwoSpaces (pyStrip l) = true := by
  unfold pyStrip
  rw [noTwoSpaces_reverse]
  exact noTwoSpaces_dropWhile _ _ ((noTwoSpaces_reverse _).mpr
    (noTwoSpaces_dropWhile _ _ h))

/-! ## `collapseAux` invariants -/

lemma collapseAux_mem (s : List Char) (b : Bool)
    (hs : ∀ c ∈ s, (isLowerAlpha c || isPySpace c) = true) :
    ∀ c ∈ collapseAux s b, goodChar c = true := by
  induction s generalizing b with
  | nil => intro c hc; simp [collapseAux] at hc
  | cons c0 rest ih =>
    intro c hc
    have hrest : ∀ x ∈ rest, (isLowerAlpha x || isPySpace x) = true :=
      fun x hx => hs x (List.mem_cons_of_mem _ hx)
    rw [collapseAux] at hc
    by_cases hsp : isPySpace c0 = true
    · rw [if_pos hsp] at hc
      cases b with
      | true => exact ih true hrest c hc
      | false =>
        rw [if_neg Bool.false_ne_true] at hc
        rcases List.mem_cons.mp hc with h | h
        · subst h; decide
        · exact ih true hrest c h
    · rw [if_neg hsp] at hc
      rcases List.mem_cons.mp hc with h | h
      · subst h
        have := hs c (List.mem_cons_self _ _)
        simp only [Bool.or_eq_true] at this
        rcases this with h' | h'
        · simp [goodChar, h']
        · exact absurd h' hsp
      · exact ih false hrest c h

lemma collapseAux_true_head (s : List Char) (c : Char) (l' : List Char)
    (h : collapseAux s true = c :: l') : isPySpace c = false := by
  induction s generalizing c l' with
  | nil => simp [collapseAux] at h
  | cons c0 rest ih =>
    rw [collapseAux] at h
    by_cases hsp : isPySpace c0 = true
    · rw [if_pos hsp, if_pos rfl] at h
      exact ih c l' h
    · rw [if_neg hsp] at h
      cases h
      exact Bool.eq_false_iff.mpr hsp

lemma collapseAux_noTwoSpaces (s : List Char) (b : Bool) :
    noTwoSpaces (collapseAux s b) = true := by
  induction s generalizing b with
  | nil => rfl
  | cons c0 rest ih =>
    rw [collapseAux]
    by_cases hsp : isPySpace c0 = true
    · rw [if_pos hsp]
      cases b with
      | true => exact ih true
      | false =>
        rw [if_neg Bool.false_ne_true, noTwoSpaces_cons]
        refine ⟨?_, ih true⟩
        intro c' l' heq hand
        have := collapseAux_true_head rest c' l' heq
        exact not_space_of_not_pySpace c' this hand.2
    · rw [if_neg hsp]
      rw [noTwoSpaces_cons]
      refine ⟨?_, ih false⟩
      intro c' l' _ hand
      exact not_space_of_not_pySpace c0 (Bool.eq_false_iff.mpr hsp) hand.1

/-! ## `pyStrip` head/last/membership -/

lemma mem_of_mem_dropWhile (p : Char → Bool) (l : List Char) (c : Char)
    (h : c ∈ l.dropWhile p) : c ∈ l :=
  (List.dropWhile_suffix p).sublist.subset h

lemma mem_of_mem_pyStrip (l : List Char) (c : Char) (h : c ∈ pyStrip l) : c ∈ l := by
  unfold pyStrip at h
  rw [List.mem_reverse] at h
  have h1 := mem_of_mem_dropWhile _ _ _ h
  rw [List.mem_reverse] at h1
  exact mem_of_mem_dropWhile _ _ _ h1

lemma dropWhile_head_false (p : Char → Bool) (l : List Char) (c : Char)
    (l' : List Char) (h : l.dropWhile p = c :: l') : p c = false := by
  induction l generalizing c l' with
  | nil => simp at h
  | cons c0 rest ih =>
    rw [List.dropWhile_cons] at h
    split at h
    · exact ih c l' h
    · cases h
      exact Bool.eq_false_iff.mpr (by assumption)

lemma pyStrip_head_not_space (l : List Char) (c : Char) (l' : List Char)
    (h : pyStrip l = c :: l') : c ≠ ' ' := by
  unfold pyStrip at h
  have hpre : (((l.dropWhile isPySpace).reverse.dropWhile isPySpace).reverse)
      <+: l.dropWhile isPySpace := by
    have hsuf := List.dropWhile_suffix (l := (l.dropWhile isPySpace).reverse)
      (p := isPySpace)
    rw [← List.reverse_prefix] at hsuf
    simpa using hsuf
  rw [h] at hpre
  rcases hpre with ⟨t, ht⟩
  have : l.dropWhile isPySpace = c :: (l' ++ t) := by
    rw [← ht]; simp
  exact not_space_of_not_pySpace c (dropWhile_head_false _ _ _ _ this)

lemma pyStrip_last_not_space (l : List Char) (c : Char) (l' : List Char)
    (h : (pyStrip l).reverse = c :: l') : c ≠ ' ' := by
  unfold pyStrip at h
  rw [List.reverse_reverse] at h
  exact not_space_of_not_pySpace c (dropWhile_head_false _ _ _ _ h)

/-- Main shape helper: every output of `clean_text` consists of lowercase
letters and single spaces, with no leading or trailing space. -/
lemma clean_text_shape (s : List Char) : normalizedShape (clean_text s) = true := by
  unfold clean_text
  split
  · rfl
  · set t := (s.map pyLower).filter (fun c => isAsciiAlpha c || isPySpace c) with ht
    have hmem : ∀ c ∈ t, (isLowerAlpha c || isPySpace c) = true := by
      intro c hc
      rw [ht, List.mem_filter] at hc
      rcases List.mem_map.mp hc.1 with ⟨a, _, ha⟩
      subst ha
      exact keepLower_of_keep_pyLower a hc.2
    have hcol : ∀ c ∈ collapseSpaces t, goodChar c = true :=
      collapseAux_mem t false hmem
    have hall : ∀ c ∈ pyStrip (collapseSpaces t), goodChar c = true :=
      fun c hc => hcol c (mem_of_mem_pyStrip _ c hc)
    have hnts : noTwoSpaces (pyStrip (collapseSpaces t)) = true :=
      noTwoSpaces_pyStrip _ (collapseAux_noTwoSpaces t false)
    unfold normalizedShape
    rw [Bool.and_eq_true, Bool.and_eq_true, Bool.and_eq_true]
    refine ⟨⟨⟨List.all_eq_true.mpr hall, hnts⟩, ?_⟩, ?_⟩
    · cases hh : pyStrip (collapseSpaces t) with
      | nil => rfl
      | cons c l' =>
        simpa [bne_iff_ne] using pyStrip_head_not_space _ c l' hh
    · cases hh : (pyStrip (collapseSpaces t)).reverse with
      | nil => rfl
      | cons c l' =>
        simpa [bne_iff_ne] using pyStrip_last_not_space _ c l' hh

/-! ## Fixed-point lemmas: `clean_text` is the identity on normalized
strings of length ≥ 10 -/

lemma dropWhile_eq_self_of_head (l : List Char)
    (h : ∀ c l', l = c :: l' → isPySpace c = false) :
    l.dropWhile isPySpace = l := by
  cases l with
  | nil => rfl
  | cons c rest =>
    rw [List.dropWhile_cons, if_neg]
    rw [h c rest rfl]
    simp

lemma pyStrip_eq_self (l : List Char)
    (hhead : ∀ c l', l = c :: l' → isPySpace c = false)
    (hlast : ∀ c l', l.reverse = c :: l' → isPySpace c = false) :
    pyStrip l = l := by
  unfold pyStrip
  rw [dropWhile_eq_self_of_head l hhead, dropWhile_eq_self_of_head l.reverse hlast,
    List.reverse_reverse]

lemma collapseAux_eq_self (l : List Char)
    (hg : ∀ c ∈ l, goodChar c = true) (hn : noTwoSpaces l = true) :
    collapseAux l false = l ∧
      ((∀ c l', l = c :: l' → c ≠ ' ') → collapseAux l true = l) := by
  induction l with
  | nil => exact ⟨rfl, fun _ => rfl⟩
  | cons c rest ih =>
    have hgrest : ∀ x ∈ rest, goodChar x = true :=
      fun x hx => hg x (List.mem_cons_of_mem _ hx)
    have hnrest : noTwoSpaces rest = true := noTwoSpaces_tail c rest hn
    have ihp := ih hgrest hnrest
    by_cases hc : c = ' '
    · subst hc
      have hresthead : ∀ c' l', rest = c' :: l' → c' ≠ ' ' := by
        intro c' l' heq hsp
        exact ((noTwoSpaces_cons _ _).mp hn).1 c' l' heq ⟨rfl, hsp⟩
      constructor
      · rw [collapseAux, if_pos (by decide), if_neg Bool.false_ne_true]
        rw [ihp.2 hresthead]
      · intro hhead
        exact absurd rfl (hhead ' ' rest rfl)
    · have hsp : isPySpace c = false :=
        not_pySpace_of_good_ne_space c (hg c (List.mem_cons_self _ _)) hc
      constructor
      · rw [collapseAux, if_neg (by rw [hsp]; simp), ihp.1]
      · intro _
        rw [collapseAux, if_neg (by rw [hsp]; simp), ihp.1]

lemma map_eq_self_of_fix (f : Char → Char) (l : List Char)
    (h : ∀ c ∈ l, f c = c) : l.map f = l := by
  induction l with
  | nil => rfl
  | cons c rest ih =>
    rw [List.map_cons, h c (List.mem_cons_self _ _),
      ih (fun x hx => h x (List.mem_cons_of_mem _ hx))]

lemma filter_eq_self_of_keep (p : Char → Bool) (l : List Char)
    (h : ∀ c ∈ l, p c = true) : l.filter p = l := by
  induction l with
  | nil => rfl
  | cons c rest ih =>
    rw [List.filter_cons, if_pos (h c (List.mem_cons_self _ _)),
      ih (fun x hx => h x (List.mem_cons_of_mem _ hx))]

lemma clean_text_fixed (l : List Char) (hshape : normalizedShape l = true)
    (hlen : 10 ≤ l.length) : clean_text l = l := by
  unfold normalizedShape at hshape
  rw [Bool.and_eq_true, Bool.and_eq_true, Bool.and_eq_true] at hshape
  obtain ⟨⟨⟨hall, hnts⟩, hhead⟩, hlast⟩ := hshape
  have hg : ∀ c ∈ l, goodChar c = true := List.all_eq_true.mp hall
  have hheadp : ∀ c l', l = c :: l' → isPySpace c = false := by
    intro c l' heq
    refine not_pySpace_of_good_ne_space c (hg c (heq ▸ List.mem_cons_self _ _)) ?_
    rw [heq] at hhead
    simpa [bne_iff_ne] using hhead
  have hlastp : ∀ c l', l.reverse = c :: l' → isPySpace c = false := by
    intro c l' heq
    have hcmem : c ∈ l := by
      rw [← List.mem_reverse, heq]
      exact List.mem_cons_self _ _
    refine not_pySpace_of_good_ne_space c (hg c hcmem) ?_
    rw [heq] at hlast
    simpa [bne_iff_ne] using hlast
  have hstrip : pyStrip l = l := pyStrip_eq_self l hheadp hlastp
  have hne : ¬(l = [] ∨ (pyStrip l).length < 10) := by
    rw [hstrip]
    rintro (h | h)
    · rw [h] at hlen; simp at hlen
    · omega
  unfold clean_text
  rw [if_neg hne]
  have hmap : l.map pyLower = l :=
    map_eq_self_of_fix pyLower l (fun c hc => pyLower_of_good c (hg c hc))
  have hfil : l.filter (fun c => isAsciiAlpha c || isPySpace c) = l :=
    filter_eq_self_of_keep _ l (fun c hc => keep_of_good c (hg c hc))
  rw [hmap, hfil]
  have hcol : collapseSpaces l = l := (collapseAux_eq_self l hg hnts).1
  rw [hcol, hstrip]

/-! ## Claims C3 and C4 — the text normalizer -/

/-- C4: for every input string, the output of `clean_text` is a lowercase
string containing only letters and single spaces (no digits, punctuation,
or repeated/leading/trailing whitespace), and the output is empty whenever
the trimmed input is shorter than 10 characters.  (`clean_text` is a pure
Lean function mirroring the pure Python function, so freedom from side
effects holds by construction.) -/
theorem C4_clean_text_output_shape (s : List Char) :
    normalizedShape (clean_text s) = true ∧
    ((pyStrip s).length < 10 → clean_text s = []) := by
  refine ⟨clean_text_shape s, fun h => ?_⟩
  unfold clean_text
  rw [if_pos (Or.inr h)]

/-- Witness for C4 at concrete inputs: a short input yields the empty
string, and a real input yields a normalized string. -/
theorem C4_clean_text_output_shape_witness :
    clean_text "hi!".toList = [] ∧
    normalizedShape (clean_text "  Great PHONE!! 10/10  ".toList) = true :=
  ⟨(C4_clean_text_output_shape ("hi!".toList)).2 (by decide),
   (C4_clean_text_output_shape ("  Great PHONE!! 10/10  ".toList)).1⟩

/-- C3 counterexample: `clean_text` is NOT idempotent on all of its
outputs.  The input `"a234567890"` has 10 trimmed characters, so it passes
the length gate, but only one letter survives the character filter: the
output is `"a"`.  Re-running the normalizer on `"a"` yields `""≠"a"`. -/
theorem C3_counterexample :
    clean_text "a234567890".toList = "a".toList ∧
    clean_text (clean_text "a234567890".toList) = [] ∧
    clean_text (clean_text "a234567890".toList) ≠ clean_text "a234567890".toList := by
  refine ⟨by decide, by decide, by decide⟩

/-- C3 (amended): the normalizer is idempotent on every output that is
empty or at least 10 characters long.  (Outputs of length 1–9 can occur —
when at least 10 trimmed input characters but fewer than 10 letters-and-
spaces survive cleaning — and those are sent to `""` by the second
application, so the claim's unrestricted idempotence fails.) -/
theorem C3_clean_text_idempotent_on_long_outputs (s : List Char)
    (h : clean_text s = [] ∨ 10 ≤ (clean_text s).length) :
    clean_text (clean_text s) = clean_text s := by
  rcases h with h | h
  · rw [h]
    rfl
  · exact clean_text_fixed _ (clean_text_shape s) h

/-- Witness for C3 at a concrete input with a long output. -/
theorem C3_clean_text_idempotent_witness :
    (clean_text "  Great PHONE!! 10/10  ".toList = [] ∨
      10 ≤ (clean_text "  Great PHONE!! 10/10  ".toList).length) ∧
    clean_text (clean_text "  Great PHONE!! 10/10  ".toList) =
      clean_text "  Great PHONE!! 10/10  ".toList :=
  ⟨Or.inr (by decide),
   C3_clean_text_idempotent_on_long_outputs _ (Or.inr (by decide))⟩

/-! ## Claim C2 — topic label phrasing (`ml_api.make_topic_label`) -/

/-- Python `str.title` (ASCII): a letter is uppercased when the previous
character is not a letter, lowercased otherwise. -/
def pyTitleAux : List Char → Bool → List Char
  | [], _ => []
  | c :: rest, prevAlpha =>
    (if isAsciiAlpha c then (if prevAlpha then pyLower c else pyUpper c) else c)
      :: pyTitleAux rest (isAsciiAlpha c)

/-- Python `str.title`. -/
def pyTitle (s : List Char) : List Char :=
  pyTitleAux s false

/-- The inner `normalize` of `make_topic_label`:
`word.replace("_", " ").strip().title()`. -/
def normalizeWord (w : List Char) : List Char :=
  pyTitle (pyStrip (w.map (fun c => if c = '_' then ' ' else c)))

/-- `ml_api.make_topic_label`: keep the words that are non-blank strings,
normalize each, then phrase by count (2 → "X and Y", 3 → "X, Y, and Z",
1 → the word, otherwise space-joined).  Both the single-text endpoint and
the batch topic pass call this same function. -/
def make_topic_label (words : List (List Char)) : List Char :=
  match (words.filter (fun w => !(pyStrip w).isEmpty)).map normalizeWord with
  | [a, b] => a ++ " and ".toList ++ b
  | [a, b, c] => a ++ ", ".toList ++ b ++ ", and ".toList ++ c
  | [a] => a
  | other => (other.intersperse " ".toList).flatten

example : make_topic_label ["battery_life".toList, "camera".toList] =
    "Battery Life and Camera".toList := by decide

example : make_topic_label ["screen".toList, "battery".toList, "price".toList] =
    "Screen, Battery, and Price".toList := by decide

/-- C2 counterexample: a single word is NOT rendered unchanged — the code
title-cases every word (and replaces underscores), so `["battery"]`
becomes `"Battery"`, not `"battery"`. -/
theorem C2_counterexample :
    make_topic_label ["battery".toList] = "Battery".toList ∧
    make_topic_label ["battery".toList] ≠ "battery".toList := by
  refine ⟨by decide, by decide⟩

/-- C2 (amended): for non-blank words, one word is rendered as its
normalized form (underscores replaced by spaces, trimmed, title-cased) —
not verbatim — two words as "X and Y", and three words as "X, Y, and Z"
(Oxford-style), where X, Y, Z are the normalized words. -/
theorem C2_topic_label_phrasing (w1 w2 w3 : List Char)
    (h1 : pyStrip w1 ≠ []) (h2 : pyStrip w2 ≠ []) (h3 : pyStrip w3 ≠ []) :
    make_topic_label [w1] = normalizeWord w1 ∧
    make_topic_label [w1, w2] =
      normalizeWord w1 ++ " and ".toList ++ normalizeWord w2 ∧
    make_topic_label [w1, w2, w3] =
      normalizeWord w1 ++ ", ".toList ++ normalizeWord w2 ++
        ", and ".toList ++ normalizeWord w3 := by
  have e1 : (!(pyStrip w1).isEmpty) = true := by
    simpa [List.isEmpty_iff] using h1
  have e2 : (!(pyStrip w2).isEmpty) = true := by
    simpa [List.isEmpty_iff] using h2
  have e3 : (!(pyStrip w3).isEmpty) = true := by
    simpa [List.isEmpty_iff] using h3
  refine ⟨?_, ?_, ?_⟩ <;>
    simp [make_topic_label, List.filter, e1, e2, e3]

/-- Witness for C2 at concrete words. -/
theorem C2_topic_label_phrasing_witness :
    make_topic_label ["battery_life".toList] = normalizeWord "battery_life".toList ∧
    make_topic_label ["battery_life".toList, "camera".toList] =
      normalizeWord "battery_life".toList ++ " and ".toList ++
        normalizeWord "camera".toList ∧
    make_topic_label ["battery_life".toList, "camera".toList, "screen".toList] =
      normalizeWord "battery_life".toList ++ ", ".toList ++
        normalizeWord "camera".toList ++ ", and ".toList ++
        normalizeWord "screen".toList :=
  C2_topic_label_phrasing _ _ _ (by decide) (by decide) (by decide)

/-! ## Claim C5 — sentiment remapping (`/analyze-text` and `/run-sentiment`) -/

/-- The remap in `analyze_text` (ml_api.py lines 129–132): a binary label
with confidence `< 0.7` is downgraded to `"neutral"`, otherwise kept. -/
def remapAnalyzeText (label : List Char) (score : ℚ) : List Char :=
  if label = "positive".toList ∧ score < 0.7 then "neutral".toList
  else if label = "negative".toList ∧ score < 0.7 then "neutral".toList
  else label

/-- The remap in `run_sentiment_analysis` (ml_api.py lines 241–245),
written out separately to mirror its own source lines. -/
def remapRunSentiment (label : List Char) (score : ℚ) : List Char :=
  if label = "positive".toList ∧ score < 0.7 then "neutral".toList
  else if label = "negative".toList ∧ score < 0.7 then "neutral".toList
  else label

/-- C5: for a binary classifier result, the remap preserves the label at
confidence ≥ 0.7, replaces it by `"neutral"` below 0.7, always produces
one of the three labels, and is applied identically in single-text
analysis and the bulk sentiment pass. -/
theorem C5_sentiment_remap (label : List Char) (score : ℚ)
    (hbin : label = "positive".toList ∨ label = "negative".toList) :
    (0.7 ≤ score → remapAnalyzeText label score = label) ∧
    (score < 0.7 → remapAnalyzeText label score = "neutral".toList) ∧
    (remapAnalyzeText label score = "positive".toList ∨
      remapAnalyzeText label score = "neutral".toList ∨
      remapAnalyzeText label score = "negative".toList) ∧
    (∀ (l : List Char) (s : ℚ), remapAnalyzeText l s = remapRunSentiment l s) := by
  refine ⟨?_, ?_, ?_, fun l s => rfl⟩
  · intro hs
    have hns : ¬score < 0.7 := not_lt.mpr hs
    unfold remapAnalyzeText
    rw [if_neg (by tauto), if_neg (by tauto)]
  · intro hs
    rcases hbin with h | h <;> subst h <;> unfold remapAnalyzeText
    · rw [if_pos ⟨rfl, hs⟩]
    · rw [if_neg (by simp), if_pos ⟨rfl, hs⟩]
  · rcases hbin with h | h <;> subst h <;> unfold remapAnalyzeText <;> split
    · right; left; rfl
    · split
      · right; left; rfl
      · left; rfl
    · right; left; rfl
    · split
      · right; left; rfl
      · right; right; rfl

/-- Witness for C5 at concrete inputs: a positive label at 0.65
confidence becomes neutral, at 0.9 it is preserved, the result is one of
the three labels, and the two call sites agree at a concrete input. -/
theorem C5_sentiment_remap_witness :
    remapAnalyzeText "positive".toList 0.65 = "neutral".toList ∧
    remapAnalyzeText "positive".toList 0.9 = "positive".toList ∧
    (remapAnalyzeText "negative".toList 0.55 = "positive".toList ∨
      remapAnalyzeText "negative".toList 0.55 = "neutral".toList ∨
      remapAnalyzeText "negative".toList 0.55 = "negative".toList) ∧
    remapAnalyzeText "negative".toList 0.8 = remapRunSentiment "negative".toList 0.8 :=
  ⟨(C5_sentiment_remap "positive".toList 0.65 (Or.inl rfl)).2.1 (by norm_num),
   (C5_sentiment_remap "positive".toList 0.9 (Or.inl rfl)).1 (by norm_num),
   (C5_sentiment_remap "negative".toList 0.55 (Or.inr rfl)).2.2.1,
   (C5_sentiment_remap "negative".toList 0.8 (Or.inr rfl)).2.2.2
     "negative".toList 0.8⟩

/-! ## Claim C1 — star rating derivation (db_api.py)

The float literals `1.0 … 5.0` of the Python source are exact integers,
so they are written as integer rationals here. -/

/-- `db_api.compute_star_rating_from_positive_percentage` (lines 24–34). -/
def compute_star_rating_from_positive_percentage (p : ℚ) : ℚ :=
  if 80 ≤ p then 5
  else if 60 ≤ p then 4
  else if 40 ≤ p then 3
  else if 20 ≤ p then 2
  else 1

/-- The SQL `CASE` star rating of `/phones` (and identically `/search`):
`processed = 0` gives 3.0, otherwise breakpoints on
`positive * 100.0 / processed`. -/
def phonesStarRating (positive processed : Nat) : ℚ :=
  if processed = 0 then 3
  else if 80 ≤ (positive : ℚ) * 100 / (processed : ℚ) then 5
  else if 60 ≤ (positive : ℚ) * 100 / (processed : ℚ) then 4
  else if 40 ≤ (positive : ℚ) * 100 / (processed : ℚ) then 3
  else if 20 ≤ (positive : ℚ) * 100 / (processed : ℚ) then 2
  else 1

/-- Floor of a rational, via flooring integer division. -/
def ratFloor (q : ℚ) : ℤ :=
  Int.fdiv q.num q.den

/-- Fractional part of a rational. -/
def ratFract (q : ℚ) : ℚ :=
  q - (ratFloor q : ℚ)

/-- Python 3 `round` (banker's rounding, half to even) to an integer. -/
def roundHalfEven (q : ℚ) : ℤ :=
  if ratFract q < 1/2 then ratFloor q
  else if 1/2 < ratFract q then ratFloor q + 1
  else if ratFloor q % 2 = 0 then ratFloor q
  else ratFloor q + 1

/-- Python `round(q, 1)` on exact rationals. -/
def pyRound1 (q : ℚ) : ℚ :=
  (roundHalfEven (10 * q) : ℚ) / 10

example : pyRound1 (100/3) = 333/10 := by with_unfolding_all decide

example : pyRound1 (25/100) = 2/10 := by with_unfolding_all decide

/-- Number of `"positive"` sentiment rows of a phone. -/
def positiveCount (labels : List (List Char)) : Nat :=
  (labels.filter (fun l => l == "positive".toList)).length

/-- The `"positive"` percentage extracted from the `/sentiments` summary
by `get_complete_phone_data`: the summary contains a `"positive"` entry
(with `round(count/total*100, 1)`) only when at least one positive row
exists; otherwise the `.get(...)` chain defaults to 0.0. -/
def sentimentsPositivePercentage (labels : List (List Char)) : ℚ :=
  if positiveCount labels = 0 then 0
  else pyRound1 ((positiveCount labels : ℚ) / (labels.length : ℚ) * 100)

/-- Star rating of the composite `/phones/{id}/complete` view
(db_api.py lines 375–394). -/
def completeStarRating (labels : List (List Char)) : ℚ :=
  compute_star_rating_from_positive_percentage
    (sentimentsPositivePercentage labels)

example : sentimentsPositivePercentage
    ["positive".toList, "negative".toList, "negative".toList] = 333/10 := by
  with_unfolding_all decide

/-- C1 counterexample: in the composite complete view, a phone with zero
processed sentiments gets positive percentage 0.0 and hence star rating
1.0, not the claimed 3.0 default. -/
theorem C1_counterexample :
    completeStarRating [] = 1 ∧ (1 : ℚ) ≠ 3 := by
  constructor
  · with_unfolding_all decide
  · norm_num

/-- C1 (amended): the star-rating helper maps the positive percentage `p`
through the fixed breakpoints (≥80→5, ≥60→4, ≥40→3, ≥20→2, else 1);
the `/phones` and `/search` SQL ratings apply the same breakpoints and
default to 3.0 at zero processed sentiments; but the composite complete
view applies the breakpoints to the (rounded) positive percentage with no
zero-sentiment default, so zero processed sentiments yields 1.0 there,
not 3.0. -/
theorem C1_star_rating (p : ℚ) (positive processed : Nat)
    (labels : List (List Char)) :
    (80 ≤ p → compute_star_rating_from_positive_percentage p = 5) ∧
    (60 ≤ p → p < 80 → compute_star_rating_from_positive_percentage p = 4) ∧
    (40 ≤ p → p < 60 → compute_star_rating_from_positive_percentage p = 3) ∧
    (20 ≤ p → p < 40 → compute_star_rating_from_positive_percentage p = 2) ∧
    (p < 20 → compute_star_rating_from_positive_percentage p = 1) ∧
    (processed = 0 → phonesStarRating positive processed = 3) ∧
    (processed ≠ 0 → phonesStarRating positive processed =
      compute_star_rating_from_positive_percentage
        ((positive : ℚ) * 100 / (processed : ℚ))) ∧
    (completeStarRating labels = compute_star_rating_from_positive_percentage
      (sentimentsPositivePercentage labels)) ∧
    completeStarRating [] = 1 := by
  refine ⟨?_, ?_, ?_, ?_, ?_, ?_, ?_, rfl, by with_unfolding_all decide⟩
  · intro h
    rw [compute_star_rating_from_positive_percentage, if_pos h]
  · intro h1 h2
    rw [compute_star_rating_from_positive_percentage,
      if_neg (by linarith), if_pos h1]
  · intro h1 h2
    rw [compute_star_rating_from_positive_percentage,
      if_neg (by linarith), if_neg (by linarith), if_pos h1]
  · intro h1 h2
    rw [compute_star_rating_from_positive_percentage,
      if_neg (by linarith), if_neg (by linarith), if_neg (by linarith), if_pos h1]
  · intro h
    rw [compute_star_rating_from_positive_percentage,
      if_neg (by linarith), if_neg (by linarith), if_neg (by linarith),
      if_neg (by linarith)]
  · intro h
    rw [phonesStarRating, if_pos h]
  · intro h
    rw [phonesStarRating, if_neg h]
    rfl

/-- Witness for C1 at concrete values: breakpoints at 85 and at the 20
boundary, the `/phones` zero default, the formula at one of two positive,
and the complete-view deviation. -/
theorem C1_star_rating_witness :
    compute_star_rating_from_positive_percentage 85 = 5 ∧
    compute_star_rating_from_positive_percentage 20 = 2 ∧
    phonesStarRating 0 0 = 3 ∧
    phonesStarRating 1 2 = compute_star_rating_from_positive_percentage
      ((1 : ℚ) * 100 / (2 : ℚ)) ∧
    completeStarRating [] = 1 :=
  ⟨(C1_star_rating 85 0 0 []).1 (by norm_num),
   (C1_star_rating 20 0 0 []).2.2.2.1 (by norm_num) (by norm_num),
   (C1_star_rating 0 0 0 []).2.2.2.2.2.1 rfl,
   (C1_star_rating 0 1 2 []).2.2.2.2.2.2.1 (by norm_num),
   (C1_star_rating 0 0 0 []).2.2.2.2.2.2.2.2⟩

/-! ## Claim C8 — CSV import (`import_csv.py`)

The relational store is modelled with auto-increment ids given by list
positions; `INSERT IGNORE` plus the unique keys on `brand_name` and
`(brand_id, phone_name)` make brand/phone insertion a get-or-create. -/

structure Store where
  brands : List (List Char)
  phones : List (Nat × List Char)
  reviews : List (Nat × List Char)

def emptyStore : Store :=
  ⟨[], [], []⟩

/-- Brand get-or-create (`import_csv.py` lines 35–41). -/
def getOrCreateBrand (st : Store) (name : List Char) : Store × Nat :=
  match st.brands.findIdx? (fun b => b == name) with
  | some i => (st, i)
  | none => ({ st with brands := st.brands ++ [name] }, st.brands.length)

/-- Phone get-or-create keyed by `(brand_id, phone_name)` (lines 43–53). -/
def getOrCreatePhone (st : Store) (brand_id : Nat) (name : List Char) :
    Store × Nat :=
  match st.phones.findIdx? (fun p => p.1 == brand_id && p.2 == name) with
  | some i => (st, i)
  | none => ({ st with phones := st.phones ++ [(brand_id, name)] },
      st.phones.length)

/-- One loop iteration of `import_csv` (lines 26–57): trim the three
fields, skip the row if any is empty, otherwise get-or-create brand and
phone and insert the review. -/
def processRow (st : Store) (row : List Char × List Char × List Char) : Store :=
  if pyStrip row.1 = [] ∨ pyStrip row.2.1 = [] ∨ pyStrip row.2.2 = [] then st
  else
    match getOrCreateBrand st (pyStrip row.1) with
    | (st1, brand_id) =>
      match getOrCreatePhone st1 brand_id (pyStrip row.2.1) with
      | (st2, phone_id) =>
        { st2 with reviews := st2.reviews ++ [(phone_id, pyStrip row.2.2)] }

/-- `import_csv`: fold the rows over the store. -/
def import_csv (rows : List (List Char × List Char × List Char)) (st : Store) :
    Store :=
  rows.foldl processRow st

/-- C8: the import skips every row with an empty (trimmed) brand, phone
or review text; importing
`{(BrandA, PhoneX, "This phone is great and fast"), (BrandA, PhoneX, "")}`
into an empty store inserts exactly one brand row, one phone row and one
review row. -/
theorem C8_import_skips_incomplete (st : Store) (b p r : List Char)
    (h : pyStrip b = [] ∨ pyStrip p = [] ∨ pyStrip r = []) :
    processRow st (b, p, r) = st ∧
    (import_csv
        [("BrandA".toList, "PhoneX".toList, "This phone is great and fast".toList),
         ("BrandA".toList, "PhoneX".toList, "".toList)] emptyStore).brands =
      ["BrandA".toList] ∧
    (import_csv
        [("BrandA".toList, "PhoneX".toList, "This phone is great and fast".toList),
         ("BrandA".toList, "PhoneX".toList, "".toList)] emptyStore).phones =
      [(0, "PhoneX".toList)] ∧
    (import_csv
        [("BrandA".toList, "PhoneX".toList, "This phone is great and fast".toList),
         ("BrandA".toList, "PhoneX".toList, "".toList)] emptyStore).reviews =
      [(0, "This phone is great and fast".toList)] := by
  refine ⟨?_, by decide, by decide, by decide⟩
  unfold processRow
  rw [if_pos h]

/-- Witness for C8: a row with empty review text leaves the store
untouched, and the two-row import produces exactly one brand, phone and
review. -/
theorem C8_import_skips_incomplete_witness :
    processRow emptyStore ("BrandA".toList, "PhoneX".toList, "".toList) =
      emptyStore ∧
    (import_csv
        [("BrandA".toList, "PhoneX".toList, "This phone is great and fast".toList),
         ("BrandA".toList, "PhoneX".toList, "".toList)] emptyStore).brands =
      ["BrandA".toList] ∧
    (import_csv
        [("BrandA".toList, "PhoneX".toList, "This phone is great and fast".toList),
         ("BrandA".toList, "PhoneX".toList, "".toList)] emptyStore).phones =
      [(0, "PhoneX".toList)] ∧
    (import_csv
        [("BrandA".toList, "PhoneX".toList, "This phone is great and fast".toList),
         ("BrandA".toList, "PhoneX".toList, "".toList)] emptyStore).reviews =
      [(0, "This phone is great and fast".toList)] :=
  C8_import_skips_incomplete emptyStore _ _ _ (Or.inr (Or.inr (by decide)))

/-! ## Claims C6, C7, C9 — per-phone batch topic modeling (`/run-topics`)

BERTopic and its vectorizer are external collaborators: a fit is an
oracle `ModelParams → Option FitResult`, where `none` models a raised
exception and `some` a successful `fit_transform` (per-document topic
assignments, an optional probability matrix, and the `get_topic` table).
Database auto-increment topic ids are abstracted by the BERTopic topic
id, which the code uses interchangeably through its
insert-then-lookup. -/

/-- Python `str.split()`: split on whitespace runs, no empty parts. -/
def pySplitAux : List Char → List Char → List (List Char)
  | [], acc => if acc = [] then [] else [acc.reverse]
  | c :: rest, acc =>
    if isPySpace c then
      if acc = [] then pySplitAux rest []
      else acc.reverse :: pySplitAux rest []
    else pySplitAux rest (c :: acc)

/-- Python `s.split()`. -/
def pySplitWords (s : List Char) : List (List Char) :=
  pySplitAux s []

example : (pySplitWords "great phone loud speaker".toList).length = 4 := by decide

/-- The `CountVectorizer`/`BERTopic` parameters assembled by
`create_topic_model` (ml_api.py lines 345–360). -/
structure ModelParams where
  ngramMin : Nat
  ngramMax : Nat
  min_df : Nat
  max_df : ℚ
  max_features : Nat
  nr_topics : Nat
  minTopicSize : Nat
deriving DecidableEq

/-- Adaptive `min_df` tiers (line 340). -/
def adaptiveMinDf (n : Nat) : Nat :=
  if n < 10 then 1 else if n < 20 then 2 else 3

/-- Adaptive `max_df` tiers (line 341). -/
def adaptiveMaxDf (n : Nat) : ℚ :=
  if n < 10 then 1 else if n < 20 then 9/10 else 4/5

/-- `create_topic_model(ngram_range, min_df, max_df)` for a corpus of
`n_docs` documents; `stop_words='english'` and the embedding model are
constants of the external library. -/
def create_topic_model (n_docs ngramMin ngramMax : Nat) (min_df : Nat)
    (max_df : ℚ) : ModelParams :=
  ⟨ngramMin, ngramMax, min_df, max_df, 500,
    min 8 (max 3 (n_docs / 10)), max 5 (n_docs / 20)⟩

/-- The primary attempt: bigrams with the adaptive thresholds (line 364). -/
def primaryParams (n : Nat) : ModelParams :=
  create_topic_model n 1 2 (adaptiveMinDf n) (adaptiveMaxDf n)

/-- The single retry: unigrams, `min_df = 1`, `max_df = 1.0` (line 370). -/
def retryParams (n : Nat) : ModelParams :=
  create_topic_model n 1 1 1 1

/-- The `probs` array returned by `fit_transform`: `None`, 1-dimensional,
or a matrix with `shape = (number of documents, cols)`. -/
inductive Probs
  | absent : Probs
  | oneD (v : List ℚ) : Probs
  | matrix (m : List (List ℚ)) (cols : Nat) : Probs

/-- Result of a successful `fit_transform` plus the model's `get_topic`
table (word, weight). -/
structure FitResult where
  topics : List Int
  probs : Probs
  topicWords : Int → List (List Char × ℚ)

/-- The per-phone document selection (lines 320–328): clean each review,
keep it when the cleaned text is non-empty and has at least 5 words. -/
def cleanPairs (reviews : List (Nat × List Char)) : List (Nat × List Char) :=
  reviews.filterMap (fun rv =>
    if clean_text rv.2 ≠ [] ∧ 5 ≤ (pySplitWords (clean_text rv.2)).length then
      some (rv.1, clean_text rv.2)
    else none)

/-- `max` of a numpy row (`probs[i].max()`), defined on non-empty rows. -/
def rowMax (row : List ℚ) : ℚ :=
  row.foldl max (row.headD 0)

/-- The relevance score of document `i` for topic `topicId`
(lines 409–415): the matrix entry when a 2-D probability matrix is
available (falling back to the row maximum when the topic id exceeds the
matrix width), and exactly 0.5 otherwise. -/
def relevanceScore : Probs → Nat → Int → ℚ
  | .matrix m cols, i, topicId =>
    if topicId < (cols : Int) then (m.getD i []).getD topicId.toNat 0
    else rowMax (m.getD i [])
  | .absent, _, _ => 1/2
  | .oneD _, _, _ => 1/2

/-- The association rows inserted for one topic (lines 410–420): one row
per document assigned to the topic. -/
def topicAssocRows (topics : List Int) (probs : Probs)
    (review_ids : List Nat) (topicId : Int) : List (Nat × Int × ℚ) :=
  (List.range topics.length).filterMap (fun i =>
    if topics.getD i (-1) = topicId then
      some (review_ids.getD i 0, topicId, relevanceScore probs i topicId)
    else none)

/-- The unique topics processed for a phone (lines 379–390): every
distinct assignment except the `-1` outlier cluster, kept only when
`get_topic` yields at least 3 words. -/
def keptTopics (r : FitResult) : List Int :=
  r.topics.eraseDups.filter (fun t => t != -1 && decide (3 ≤ (r.topicWords t).length))

/-- Topic-row count and inserted association rows for one fitted phone
(lines 377–426). -/
def processTopics (r : FitResult) (review_ids : List Nat) :
    Nat × List (Nat × Int × ℚ) :=
  ((keptTopics r).length,
   ((keptTopics r).map (topicAssocRows r.topics r.probs review_ids)).flatten)

/-- Decimal rendering of a count interpolated into a result message. -/
def natToChars (n : Nat) : List Char :=
  (Nat.repr n).toList

/-- Outcome of the per-phone loop body. -/
inductive PhoneOutcome
  | skipped (msg : List Char)
  | failed (msg : List Char)
  | success (msg : List Char) (rows : List (Nat × Int × ℚ))
deriving DecidableEq

def PhoneOutcome.isSkipped : PhoneOutcome → Bool
  | .skipped _ => true
  | _ => false

/-- Association rows persisted by an outcome. -/
def outcomeRows : PhoneOutcome → List (Nat × Int × ℚ)
  | .success _ rows => rows
  | _ => []

/-- The success outcome for a fitted phone (lines 427–428). -/
def successOutcome (phoneName : List Char) (r : FitResult)
    (review_ids : List Nat) : PhoneOutcome :=
  .success ("✅ ".toList ++ phoneName ++ ": ".toList ++
      natToChars (processTopics r review_ids).1 ++ " topics created".toList)
    (processTopics r review_ids).2

/-- The body of the per-phone loop of `run_topic_modeling`
(lines 306–433): select documents, skip under 10, try the primary
configuration, retry once with the relaxed configuration, and record
complete failure otherwise. -/
def processPhone (fit : ModelParams → Option FitResult)
    (phoneName : List Char) (reviews : List (Nat × List Char)) : PhoneOutcome :=
  if (cleanPairs reviews).length < 10 then
    .skipped ("Skipped ".toList ++ phoneName ++ ": only ".toList ++
      natToChars (cleanPairs reviews).length ++ " clean reviews".toList)
  else if (cleanPairs reviews).length < 5 then
    .skipped ("Skipped ".toList ++ phoneName ++ ": only ".toList ++
      natToChars (cleanPairs reviews).length ++
      " clean reviews (too few for topic modeling)".toList)
  else
    match fit (primaryParams (cleanPairs reviews).length) with
    | some r => successOutcome phoneName r ((cleanPairs reviews).map Prod.fst)
    | none =>
      match fit (retryParams (cleanPairs reviews).length) with
      | some r => successOutcome phoneName r ((cleanPairs reviews).map Prod.fst)
      | none =>
        .failed ("❌ ".toList ++ phoneName ++
          ": Topic modeling failed completely".toList)

/-- The batch loop of `run_topic_modeling`: one result is appended per
phone, whatever the outcome for earlier phones. -/
def run_topic_modeling (fit : Nat → ModelParams → Option FitResult)
    (reviewsOf : Nat → List (Nat × List Char))
    (phones : List (Nat × List Char)) : List PhoneOutcome :=
  phones.foldl
    (fun results ph => results ++ [processPhone (fit ph.1) ph.2 (reviewsOf ph.1)])
    []

example : processPhone (fun _ => none) "P".toList
    ((List.range 9).map
      (fun i => (i, "good phone battery screen camera quality".toList))) =
    PhoneOutcome.skipped
      ("Skipped P: only 9 clean reviews".toList) := by decide

/-- C6: in the per-phone batch topic pass, a phone with exactly 9 cleaned
reviews of ≥ 5 words is skipped with the message
"Skipped ⟨name⟩: only 9 clean reviews", and a phone with 10 such reviews
proceeds to topic modeling (its outcome is never a skip). -/
theorem C6_topic_skip_threshold (fit : ModelParams → Option FitResult)
    (name : List Char) (reviews9 reviews10 : List (Nat × List Char))
    (h9 : (cleanPairs reviews9).length = 9)
    (h10 : (cleanPairs reviews10).length = 10) :
    processPhone fit name reviews9 =
      .skipped ("Skipped ".toList ++ name ++ ": only 9 clean reviews".toList) ∧
    (processPhone fit name reviews10).isSkipped = false := by
  constructor
  · unfold processPhone
    rw [h9, if_pos (by norm_num)]
    have h9c : natToChars 9 = "9".toList := by decide
    rw [h9c]
    simp only [List.append_assoc]
    have key : ": only ".toList ++ ("9".toList ++ " clean reviews".toList) =
        ": only 9 clean reviews".toList := by decide
    rw [key]
  · unfold processPhone
    rw [h10, if_neg (by norm_num), if_neg (by norm_num)]
    cases hfp : fit (primaryParams 10) with
    | some r => rfl
    | none =>
      cases hfr : fit (retryParams 10) with
      | some r => rfl
      | none => rfl

/-- Witness for C6: a phone with 9 concrete clean reviews is skipped with
the "only 9 clean reviews" message; with 10 it is not skipped. -/
theorem C6_topic_skip_threshold_witness :
    processPhone (fun _ => none) "PhoneX".toList
        ((List.range 9).map
          (fun i => (i, "good phone battery screen camera quality".toList))) =
      .skipped ("Skipped ".toList ++ "PhoneX".toList ++
        ": only 9 clean reviews".toList) ∧
    (processPhone (fun _ => none) "PhoneX".toList
        ((List.range 10).map
          (fun i => (i, "good phone battery screen camera quality".toList)))).isSkipped
      = false :=
  C6_topic_skip_threshold (fun _ => none) "PhoneX".toList _ _
    (by decide) (by decide)

lemma foldl_append_eq_map {α β : Type} (f : α → β) (l : List α)
    (acc : List β) :
    l.foldl (fun res a => res ++ [f a]) acc = acc ++ l.map f := by
  induction l generalizing acc with
  | nil => simp
  | cons a t ih =>
    rw [List.foldl_cons, ih, List.map_cons]
    simp

/-- C7: topic modeling is attempted with bigrams first; on failure it is
retried exactly once with unigrams and maximally permissive thresholds
(`min_df = 1`, `max_df = 1.0`); if the retry also fails the phone is
recorded as failed; the outcome of a phone depends only on those two
configurations (so no further attempt is consulted), and the batch
produces exactly one outcome per phone regardless of failures. -/
theorem C7_topic_retry_policy (fit fit' : ModelParams → Option FitResult)
    (name : List Char) (reviews : List (Nat × List Char)) (r : FitResult)
    (fitOf : Nat → ModelParams → Option FitResult)
    (reviewsOf : Nat → List (Nat × List Char))
    (phones : List (Nat × List Char))
    (h10 : 10 ≤ (cleanPairs reviews).length) :
    (primaryParams (cleanPairs reviews).length).ngramMin = 1 ∧
    (primaryParams (cleanPairs reviews).length).ngramMax = 2 ∧
    (retryParams (cleanPairs reviews).length).ngramMin = 1 ∧
    (retryParams (cleanPairs reviews).length).ngramMax = 1 ∧
    (retryParams (cleanPairs reviews).length).min_df = 1 ∧
    (retryParams (cleanPairs reviews).length).max_df = 1 ∧
    (fit (primaryParams (cleanPairs reviews).length) =
        fit' (primaryParams (cleanPairs reviews).length) →
      fit (retryParams (cleanPairs reviews).length) =
        fit' (retryParams (cleanPairs reviews).length) →
      processPhone fit name reviews = processPhone fit' name reviews) ∧
    (fit (primaryParams (cleanPairs reviews).length) = none →
      fit (retryParams (cleanPairs reviews).length) = some r →
      processPhone fit name reviews =
        successOutcome name r ((cleanPairs reviews).map Prod.fst)) ∧
    (fit (primaryParams (cleanPairs reviews).length) = none →
      fit (retryParams (cleanPairs reviews).length) = none →
      processPhone fit name reviews =
        .failed ("❌ ".toList ++ name ++
          ": Topic modeling failed completely".toList)) ∧
    run_topic_modeling fitOf reviewsOf phones =
      phones.map (fun ph => processPhone (fitOf ph.1) ph.2 (reviewsOf ph.1)) := by
  refine ⟨rfl, rfl, rfl, rfl, rfl, rfl, ?_, ?_, ?_, ?_⟩
  · intro h1 h2
    unfold processPhone
    rw [if_neg (by omega), if_neg (by omega), if_neg (by omega),
      if_neg (by omega), h1, h2]
  · intro hp hr
    unfold processPhone
    rw [if_neg (by omega), if_neg (by omega), hp, hr]
  · intro hp hr
    unfold processPhone
    rw [if_neg (by omega), if_neg (by omega), hp, hr]
  · unfold run_topic_modeling
    rw [foldl_append_eq_map]
    simp

/-- Ten concrete reviews that all survive cleaning with ≥ 5 words. -/
def tenCleanReviews : List (Nat × List Char) :=
  (List.range 10).map
    (fun i => (i, "good phone battery screen camera quality".toList))

/-- Witness for C7 at concrete inputs: the retry configuration really is
unigrams with `min_df = 1`, `max_df = 1`; a fit oracle failing on the
primary configuration but succeeding on the retry yields the success
outcome of the retry result; an always-failing oracle yields the
"failed completely" record; and a one-phone batch with a failing oracle
still returns one outcome per phone. -/
theorem C7_topic_retry_policy_witness :
    (primaryParams (cleanPairs tenCleanReviews).length).ngramMax = 2 ∧
    (retryParams (cleanPairs tenCleanReviews).length).ngramMax = 1 ∧
    (retryParams (cleanPairs tenCleanReviews).length).min_df = 1 ∧
    (retryParams (cleanPairs tenCleanReviews).length).max_df = 1 ∧
    processPhone
        (fun ps => if ps.ngramMax = 1 then some ⟨[], Probs.absent, fun _ => []⟩ else none)
        "P".toList tenCleanReviews =
      successOutcome "P".toList ⟨[], Probs.absent, fun _ => []⟩
        ((cleanPairs tenCleanReviews).map Prod.fst) ∧
    processPhone (fun _ => none) "P".toList tenCleanReviews =
      .failed ("❌ ".toList ++ "P".toList ++
        ": Topic modeling failed completely".toList) ∧
    run_topic_modeling (fun _ _ => none) (fun _ => []) [(1, "Q".toList)] =
      [(1, "Q".toList)].map
        (fun ph => processPhone ((fun _ _ => none : Nat → ModelParams →
          Option FitResult) ph.1) ph.2 ((fun _ => [] : Nat →
            List (Nat × List Char)) ph.1)) :=
  ⟨(C7_topic_retry_policy (fun _ => none) (fun _ => none) "P".toList
      tenCleanReviews ⟨[], Probs.absent, fun _ => []⟩ (fun _ _ => none)
      (fun _ => []) [(1, "Q".toList)] (by decide)).2.1,
   (C7_topic_retry_policy (fun _ => none) (fun _ => none) "P".toList
      tenCleanReviews ⟨[], Probs.absent, fun _ => []⟩ (fun _ _ => none)
      (fun _ => []) [(1, "Q".toList)] (by decide)).2.2.2.1,
   (C7_topic_retry_policy (fun _ => none) (fun _ => none) "P".toList
      tenCleanReviews ⟨[], Probs.absent, fun _ => []⟩ (fun _ _ => none)
      (fun _ => []) [(1, "Q".toList)] (by decide)).2.2.2.2.1,
   (C7_topic_retry_policy (fun _ => none) (fun _ => none) "P".toList
      tenCleanReviews ⟨[], Probs.absent, fun _ => []⟩ (fun _ _ => none)
      (fun _ => []) [(1, "Q".toList)] (by decide)).2.2.2.2.2.1,
   (C7_topic_retry_policy
      (fun ps => if ps.ngramMax = 1 then some ⟨[], Probs.absent, fun _ => []⟩ else none)
      (fun _ => none) "P".toList tenCleanReviews ⟨[], Probs.absent, fun _ => []⟩
      (fun _ _ => none) (fun _ => []) [(1, "Q".toList)]
      (by decide)).2.2.2.2.2.2.2.1 rfl rfl,
   (C7_topic_retry_policy (fun _ => none) (fun _ => none) "P".toList
      tenCleanReviews ⟨[], Probs.absent, fun _ => []⟩ (fun _ _ => none)
      (fun _ => []) [(1, "Q".toList)] (by decide)).2.2.2.2.2.2.2.2.1 rfl rfl,
   (C7_topic_retry_policy (fun _ => none) (fun _ => none) "P".toList
      tenCleanReviews ⟨[], Probs.absent, fun _ => []⟩ (fun _ _ => none)
      (fun _ => []) [(1, "Q".toList)] (by decide)).2.2.2.2.2.2.2.2.2⟩

/-! ## Claim C9 — relevance scores lie in [0,1] -/

/-- Well-formedness contract of the external model's probability output:
a probability matrix has one row per document, a positive width, uniform
row lengths, and entries in `[0,1]`. -/
def probsWF : Probs → Nat → Prop
  | .matrix m cols, ndocs =>
    m.length = ndocs ∧ 1 ≤ cols ∧
      ∀ row ∈ m, row.length = cols ∧ ∀ x ∈ row, 0 ≤ x ∧ x ≤ 1
  | _, _ => True

/-- Well-formedness of a fit result for a corpus of `ndocs` documents. -/
def FitWF (r : FitResult) (ndocs : Nat) : Prop :=
  r.topics.length = ndocs ∧ probsWF r.probs ndocs

lemma foldl_max_mem (l : List ℚ) (a : ℚ) : l.foldl max a ∈ a :: l := by
  induction l generalizing a with
  | nil => simp
  | cons b t ih =>
    rw [List.foldl_cons]
    rcases List.mem_cons.mp (ih (max a b)) with h | h
    · rcases max_choice a b with hm | hm
      · rw [h, hm]; exact List.mem_cons_self _ _
      · rw [h, hm]
        exact List.mem_cons_of_mem _ (List.mem_cons_self _ _)
    · exact List.mem_cons_of_mem _ (List.mem_cons_of_mem _ h)

lemma rowMax_mem (row : List ℚ) (h : row ≠ []) : rowMax row ∈ row := by
  cases row with
  | nil => exact absurd rfl h
  | cons c t =>
    unfold rowMax
    rcases List.mem_cons.mp (foldl_max_mem (c :: t) ((c :: t).headD 0)) with h1 | h1
    · rw [h1]
      exact List.mem_cons_self _ _
    · exact h1

lemma getD_mem {α : Type} (l : List α) (d : α) (j : Nat) (h : j < l.length) :
    l.getD j d ∈ l := by
  rw [List.getD_eq_getElem l d h]
  exact l.getElem_mem h

lemma relevance_bounds (probs : Probs) (ndocs i : Nat) (tid : Int)
    (hwfp : probsWF probs ndocs) (hi : i < ndocs) :
    0 ≤ relevanceScore probs i tid ∧ relevanceScore probs i tid ≤ 1 := by
  cases probs with
  | absent => norm_num [relevanceScore]
  | oneD v => norm_num [relevanceScore]
  | matrix m cols =>
    obtain ⟨hlen, hcols, hrows⟩ := hwfp
    have hrowmem : m.getD i [] ∈ m := getD_mem m [] i (by omega)
    obtain ⟨hrl, hent⟩ := hrows _ hrowmem
    simp only [relevanceScore]
    by_cases htid : tid < (cols : Int)
    · rw [if_pos htid]
      exact hent _ (getD_mem _ 0 _ (by rw [hrl]; omega))
    · rw [if_neg htid]
      refine hent _ (rowMax_mem _ ?_)
      intro hnil
      rw [hnil] at hrl
      simp at hrl
      omega

lemma topicAssocRows_char (topics : List Int) (probs : Probs)
    (ids : List Nat) (t : Int) (x : Nat × Int × ℚ)
    (hx : x ∈ topicAssocRows topics probs ids t) :
    ∃ i, i < topics.length ∧ x = (ids.getD i 0, t, relevanceScore probs i t) := by
  unfold topicAssocRows at hx
  rcases List.mem_filterMap.mp hx with ⟨i, hi, hif⟩
  rw [List.mem_range] at hi
  refine ⟨i, hi, ?_⟩
  split at hif
  · cases hif
    rfl
  · cases hif

lemma processTopics_rows_char (r : FitResult) (ids : List Nat)
    (x : Nat × Int × ℚ) (hx : x ∈ (processTopics r ids).2) :
    ∃ i, i < r.topics.length ∧ x.2.2 = relevanceScore r.probs i x.2.1 := by
  unfold processTopics at hx
  rcases List.mem_flatten.mp hx with ⟨s, hs, hxs⟩
  rcases List.mem_map.mp hs with ⟨t, _, hts⟩
  subst hts
  rcases topicAssocRows_char _ _ _ _ _ hxs with ⟨i, hi, hxe⟩
  exact ⟨i, hi, by rw [hxe]⟩

/-- C9: every relevance score persisted in a review-topic association row
lies in `[0,1]` (given the external model's contract that probability
entries are probabilities); the score equals the model's per-document
per-topic probability when a probability matrix is available — the
matrix entry of the document and topic when the topic id is inside the
matrix width — and equals exactly 0.5 when no matrix is available. -/
theorem C9_relevance_scores (fit : ModelParams → Option FitResult)
    (name : List Char) (reviews : List (Nat × List Char))
    (hwf : ∀ ps r, fit ps = some r → FitWF r (cleanPairs reviews).length) :
    (∀ x ∈ outcomeRows (processPhone fit name reviews),
      0 ≤ x.2.2 ∧ x.2.2 ≤ 1) ∧
    (∀ (m : List (List ℚ)) (cols i : Nat) (tid : Int),
      probsWF (Probs.matrix m cols) m.length → i < m.length →
      relevanceScore (Probs.matrix m cols) i tid ∈ m.getD i [] ∧
      (tid < (cols : Int) →
        relevanceScore (Probs.matrix m cols) i tid =
          (m.getD i []).getD tid.toNat 0)) ∧
    (∀ (i : Nat) (tid : Int), relevanceScore Probs.absent i tid = 1/2) ∧
    (∀ (v : List ℚ) (i : Nat) (tid : Int),
      relevanceScore (Probs.oneD v) i tid = 1/2) := by
  refine ⟨?_, ?_, fun i tid => rfl, fun v i tid => rfl⟩
  · intro x hx
    unfold processPhone at hx
    split at hx
    · cases hx
    · split at hx
      · cases hx
      · split at hx
        next r heq =>
          obtain ⟨htl, hpw⟩ := hwf _ _ heq
          rcases processTopics_rows_char r _ x hx with ⟨i, hi, hxe⟩
          rw [hxe]
          exact relevance_bounds r.probs _ i x.2.1 hpw (by omega)
        next heq =>
          split at hx
          next r heq2 =>
            obtain ⟨htl, hpw⟩ := hwf _ _ heq2
            rcases processTopics_rows_char r _ x hx with ⟨i, hi, hxe⟩
            rw [hxe]
            exact relevance_bounds r.probs _ i x.2.1 hpw (by omega)
          next => cases hx
  · intro m cols i tid hwfp hi
    obtain ⟨hlen, hcols, hrows⟩ := hwfp
    obtain ⟨hrl, _⟩ := hrows _ (getD_mem m [] i hi)
    constructor
    · simp only [relevanceScore]
      by_cases htid : tid < (cols : Int)
      · rw [if_pos htid]
        exact getD_mem _ 0 _ (by rw [hrl]; omega)
      · rw [if_neg htid]
        refine rowMax_mem _ ?_
        intro hnil
        rw [hnil] at hrl
        simp at hrl
        omega
    · intro htid
      simp only [relevanceScore]
      rw [if_pos htid]

/-- Witness for C9 at concrete inputs: a fitted phone whose probability
matrix is all `3/4` persists the row `(0, 0, 3/4)` with a score in
`[0,1]`; a concrete matrix lookup returns the matrix entry, which is a
member of the document's row; and the score is exactly `1/2` without a
matrix. -/
theorem C9_relevance_scores_witness :
    (0 ≤ ((0, (0 : Int), (3/4 : ℚ)) : Nat × Int × ℚ).2.2 ∧
      ((0, (0 : Int), (3/4 : ℚ)) : Nat × Int × ℚ).2.2 ≤ 1) ∧
    relevanceScore (Probs.matrix [[(1/2 : ℚ), 3/4]] 2) 0 1 ∈
      ([[(1/2 : ℚ), 3/4]] : List (List ℚ)).getD 0 [] ∧
    relevanceScore (Probs.matrix [[(1/2 : ℚ), 3/4]] 2) 0 1 =
      (([[(1/2 : ℚ), 3/4]] : List (List ℚ)).getD 0 []).getD (1 : Int).toNat 0 ∧
    relevanceScore Probs.absent 0 0 = 1/2 ∧
    relevanceScore (Probs.oneD [(1/4 : ℚ)]) 0 0 = 1/2 := by
  have hwf : ∀ ps r,
      (fun (_ : ModelParams) => some
        (⟨List.replicate 10 0,
          Probs.matrix (List.replicate 10 [(3/4 : ℚ)]) 1,
          fun _ => [("battery".toList, 1), ("screen".toList, 1),
            ("camera".toList, 1)]⟩ : FitResult)) ps = some r →
      FitWF r (cleanPairs tenCleanReviews).length := by
    intro ps r h
    cases h
    refine ⟨by decide, ?_⟩
    simp only [probsWF, FitResult.probs]
    refine ⟨by decide, by norm_num, ?_⟩
    intro row hrow
    rw [List.eq_of_mem_replicate hrow]
    refine ⟨rfl, ?_⟩
    intro x hx
    rcases List.mem_singleton.mp hx with rfl
    norm_num
  have h9 := C9_relevance_scores
    (fun _ => some
      (⟨List.replicate 10 0,
        Probs.matrix (List.replicate 10 [(3/4 : ℚ)]) 1,
        fun _ => [("battery".toList, 1), ("screen".toList, 1),
          ("camera".toList, 1)]⟩ : FitResult))
    "P".toList tenCleanReviews hwf
  have hwfp : probsWF (Probs.matrix [[(1/2 : ℚ), 3/4]] 2)
      ([[(1/2 : ℚ), 3/4]] : List (List ℚ)).length := by
    simp only [probsWF]
    refine ⟨trivial, by norm_num, ?_⟩
    intro row hrow
    rcases List.mem_singleton.mp hrow with rfl
    refine ⟨rfl, ?_⟩
    intro x hx
    rcases List.mem_cons.mp hx with rfl | hx
    · norm_num
    · rcases List.mem_singleton.mp hx with rfl
      norm_num
  refine ⟨h9.1 (0, (0 : Int), (3/4 : ℚ)) (by with_unfolding_all decide),
    (h9.2.1 [[(1/2 : ℚ), 3/4]] 2 0 1 hwfp (by norm_num)).1,
    (h9.2.1 [[(1/2 : ℚ), 3/4]] 2 0 1 hwfp (by norm_num)).2 (by norm_num),
    h9.2.2.1 0 0,
    h9.2.2.2 [(1/4 : ℚ)] 0 0⟩

/-! ## Claim C10 — short reviews in the bulk sentiment pass
(`/run-sentiment`, ml_api.py lines 206–274)

The classifier is an oracle `List Char → Option (List Char × ℚ)`:
`none` models a raised exception (counted as an error), `some` a
classification with its binary label and confidence. -/

structure SentRun where
  processed : Nat
  errors : Nat
  inserted : List (Nat × List Char × ℚ)
deriving DecidableEq

/-- One iteration of the `/run-sentiment` loop (lines 230–263): reviews
with trimmed text under 10 characters are passed over by `continue`
before the classifier is consulted; otherwise the review is classified,
remapped and upserted (success) or counted as an error (exception). -/
def sentStep (classify : List Char → Option (List Char × ℚ))
    (acc : SentRun) (rv : Nat × List Char) : SentRun :=
  if (pyStrip rv.2).length < 10 then acc
  else
    match classify rv.2 with
    | some (label, score) =>
      ⟨acc.processed + 1, acc.errors,
        acc.inserted ++ [(rv.1, remapRunSentiment label score, score)]⟩
    | none => ⟨acc.processed, acc.errors + 1, acc.inserted⟩

/-- The whole bulk pass over the fetched reviews; the endpoint's
response reports `processed`, `errors` and `total_reviews = rs.length`. -/
def run_sentiment_analysis (classify : List Char → Option (List Char × ℚ))
    (rs : List (Nat × List Char)) : SentRun :=
  rs.foldl (sentStep classify) ⟨0, 0, []⟩

/-- Number of fetched reviews whose trimmed text is under 10 characters. -/
def countShort (rs : List (Nat × List Char)) : Nat :=
  (rs.filter (fun rv => decide ((pyStrip rv.2).length < 10))).length

/-- The fetch query of the pass: reviews with no sentiment row, capped at
10000 (`LIMIT 10000`). -/
def fetchUnprocessed (all : List (Nat × List Char)) (db : List Nat) :
    List (Nat × List Char) :=
  (all.filter (fun rv => !(decide (rv.1 ∈ db)))).take 10000

/-- One pass over the database: the sentiment table gains one row per
successfully processed review. -/
def passDB (classify : List Char → Option (List Char × ℚ))
    (all : List (Nat × List Char)) (db : List Nat) : List Nat :=
  db ++ (run_sentiment_analysis classify (fetchUnprocessed all db)).inserted.map
    (fun x => x.1)

/-- `k` consecutive bulk passes starting from an empty sentiment table. -/
def iteratePasses (classify : List Char → Option (List Char × ℚ))
    (all : List (Nat × List Char)) : Nat → List Nat
  | 0 => []
  | k + 1 => passDB classify all (iteratePasses classify all k)

lemma countShort_cons (rv : Nat × List Char) (rest : List (Nat × List Char)) :
    countShort (rv :: rest) =
      (if (pyStrip rv.2).length < 10 then 1 else 0) + countShort rest := by
  by_cases h : (pyStrip rv.2).length < 10 <;>
    · simp [countShort, List.filter_cons, h]
      try omega

lemma sentRun_master (classify : List Char → Option (List Char × ℚ))
    (rs : List (Nat × List Char)) : ∀ acc : SentRun,
    (rs.foldl (sentStep classify) acc).processed +
        (rs.foldl (sentStep classify) acc).errors + countShort rs =
      acc.processed + acc.errors + rs.length ∧
    ∀ x ∈ (rs.foldl (sentStep classify) acc).inserted,
      x ∈ acc.inserted ∨ ∃ t, (x.1, t) ∈ rs ∧ ¬((pyStrip t).length < 10) := by
  induction rs with
  | nil =>
    intro acc
    exact ⟨by simp [countShort], fun x hx => Or.inl hx⟩
  | cons rv rest ih =>
    intro acc
    by_cases h : (pyStrip rv.2).length < 10
    · have hstep : sentStep classify acc rv = acc := by
        unfold sentStep
        rw [if_pos h]
      rw [List.foldl_cons, hstep]
      obtain ⟨ihc, ihm⟩ := ih acc
      constructor
      · rw [countShort_cons, if_pos h, List.length_cons]
        omega
      · intro x hx
        rcases ihm x hx with hl | ⟨t, ht, hlt⟩
        · exact Or.inl hl
        · exact Or.inr ⟨t, List.mem_cons_of_mem _ ht, hlt⟩
    · cases hc : classify rv.2 with
      | none =>
        have hstep : sentStep classify acc rv =
            ⟨acc.processed, acc.errors + 1, acc.inserted⟩ := by
          unfold sentStep
          rw [if_neg h, hc]
        rw [List.foldl_cons, hstep]
        obtain ⟨ihc, ihm⟩ := ih ⟨acc.processed, acc.errors + 1, acc.inserted⟩
        simp only at ihc ihm
        constructor
        · rw [countShort_cons, if_neg h, List.length_cons]
          omega
        · intro x hx
          rcases ihm x hx with hl | ⟨t, ht, hlt⟩
          · exact Or.inl hl
          · exact Or.inr ⟨t, List.mem_cons_of_mem _ ht, hlt⟩
      | some ls =>
        have hstep : sentStep classify acc rv =
            ⟨acc.processed + 1, acc.errors,
              acc.inserted ++ [(rv.1, remapRunSentiment ls.1 ls.2, ls.2)]⟩ := by
          unfold sentStep
          rw [if_neg h, hc]
        rw [List.foldl_cons, hstep]
        obtain ⟨ihc, ihm⟩ := ih ⟨acc.processed + 1, acc.errors,
          acc.inserted ++ [(rv.1, remapRunSentiment ls.1 ls.2, ls.2)]⟩
        simp only at ihc ihm
        constructor
        · rw [countShort_cons, if_neg h, List.length_cons]
          omega
        · intro x hx
          rcases ihm x hx with hl | ⟨t, ht, hlt⟩
          · rcases List.mem_append.mp hl with hl2 | hl2
            · exact Or.inl hl2
            · rcases List.mem_singleton.mp hl2 with rfl
              exact Or.inr ⟨rv.2, List.mem_cons_self _ _, h⟩
          · exact Or.inr ⟨t, List.mem_cons_of_mem _ ht, hlt⟩

lemma sentRun_classify_congr
    (classify classify' : List Char → Option (List Char × ℚ))
    (h : ∀ t, ¬((pyStrip t).length < 10) → classify t = classify' t) :
    ∀ (rs : List (Nat × List Char)) (acc : SentRun),
      rs.foldl (sentStep classify) acc = rs.foldl (sentStep classify') acc := by
  intro rs
  induction rs with
  | nil => intro acc; rfl
  | cons rv rest ih =>
    intro acc
    rw [List.foldl_cons, List.foldl_cons]
    have hstep : sentStep classify acc rv = sentStep classify' acc rv := by
      unfold sentStep
      by_cases hs : (pyStrip rv.2).length < 10
      · rw [if_pos hs, if_pos hs]
      · rw [if_neg hs, if_neg hs, h rv.2 hs]
    rw [hstep]
    exact ih _

lemma short_id_never_processed
    (classify : List Char → Option (List Char × ℚ))
    (all : List (Nat × List Char)) (id : Nat)
    (hshort : ∀ t, (id, t) ∈ all → (pyStrip t).length < 10) :
    ∀ k, id ∉ iteratePasses classify all k := by
  intro k
  induction k with
  | zero => simp [iteratePasses]
  | succ k ih =>
    simp only [iteratePasses, passDB]
    rw [List.mem_append]
    rintro (hdb | hmap)
    · exact ih hdb
    · rcases List.mem_map.mp hmap with ⟨x, hx, hx1⟩
      rcases (sentRun_master classify
          (fetchUnprocessed all (iteratePasses classify all k)) ⟨0, 0, []⟩).2
          x hx with hl | ⟨t, ht, hlt⟩
      · cases hl
      · have hall : (x.1, t) ∈ all := by
          have h1 := List.mem_of_mem_take ht
          exact (List.mem_filter.mp h1).1
        rw [hx1] at hall
        exact hlt (hshort t hall)

/-- C10: in the bulk sentiment pass, every fetched review whose trimmed
text is shorter than 10 characters is silently skipped — it is not
classified (the pass ignores the classifier's value on short texts), not
counted as processed or as an error, gains no sentiment row, and so
remains in the unprocessed set after any number of future passes; hence
`processed + errors` falls short of `total_reviews` by exactly the number
of short fetched reviews, and is strictly less as soon as one exists. -/
theorem C10_short_reviews_silently_skipped
    (classify classify' : List Char → Option (List Char × ℚ))
    (rs all : List (Nat × List Char)) (id : Nat) :
    (run_sentiment_analysis classify rs).processed +
        (run_sentiment_analysis classify rs).errors + countShort rs =
      rs.length ∧
    (1 ≤ countShort rs →
      (run_sentiment_analysis classify rs).processed +
          (run_sentiment_analysis classify rs).errors < rs.length) ∧
    (∀ x ∈ (run_sentiment_analysis classify rs).inserted,
      ∃ t, (x.1, t) ∈ rs ∧ ¬((pyStrip t).length < 10)) ∧
    ((∀ t, ¬((pyStrip t).length < 10) → classify t = classify' t) →
      run_sentiment_analysis classify rs = run_sentiment_analysis classify' rs) ∧
    ((∀ t, (id, t) ∈ all → (pyStrip t).length < 10) →
      ∀ k, id ∉ iteratePasses classify all k) := by
  have hm := sentRun_master classify rs ⟨0, 0, []⟩
  refine ⟨?_, ?_, ?_, ?_, ?_⟩
  · have := hm.1
    simp only at this
    unfold run_sentiment_analysis
    omega
  · intro h1
    have := hm.1
    simp only at this
    unfold run_sentiment_analysis
    omega
  · intro x hx
    rcases hm.2 x hx with hl | h
    · cases hl
    · exact h
  · intro h
    unfold run_sentiment_analysis
    exact sentRun_classify_congr classify classify' h rs _
  · exact short_id_never_processed classify all id

/-- Witness for C10 at concrete inputs: with one short and one long
fetched review, the counts satisfy `processed + errors + 1 = 2` and are
strictly below `total_reviews = 2`; the pass is unchanged when the
classifier's behaviour on short texts changes; and review 1 (whose only
text is short) is still unprocessed after three passes. -/
theorem C10_short_reviews_silently_skipped_witness :
    (run_sentiment_analysis (fun _ => some ("positive".toList, 1))
        [(1, "short".toList), (2, "This phone is great and fast".toList)]).processed +
      (run_sentiment_analysis (fun _ => some ("positive".toList, 1))
        [(1, "short".toList), (2, "This phone is great and fast".toList)]).errors +
      countShort [(1, "short".toList), (2, "This phone is great and fast".toList)] = 2 ∧
    (run_sentiment_analysis (fun _ => some ("positive".toList, 1))
        [(1, "short".toList), (2, "This phone is great and fast".toList)]).processed +
      (run_sentiment_analysis (fun _ => some ("positive".toList, 1))
        [(1, "short".toList), (2, "This phone is great and fast".toList)]).errors < 2 ∧
    run_sentiment_analysis (fun _ => some ("positive".toList, 1))
        [(1, "short".toList), (2, "This phone is great and fast".toList)] =
      run_sentiment_analysis
        (fun t => if (pyStrip t).length < 10 then none
          else some ("positive".toList, 1))
        [(1, "short".toList), (2, "This phone is great and fast".toList)] ∧
    1 ∉ iteratePasses (fun _ => some ("positive".toList, 1))
        [(1, "short".toList)] 3 :=
  ⟨(C10_short_reviews_silently_skipped (fun _ => some ("positive".toList, 1))
      (fun _ => some ("positive".toList, 1))
      [(1, "short".toList), (2, "This phone is great and fast".toList)]
      [(1, "short".toList)] 1).1,
   (C10_short_reviews_silently_skipped (fun _ => some ("positive".toList, 1))
      (fun _ => some ("positive".toList, 1))
      [(1, "short".toList), (2, "This phone is great and fast".toList)]
      [(1, "short".toList)] 1).2.1 (by decide),
   (C10_short_reviews_silently_skipped (fun _ => some ("positive".toList, 1))
      (fun t => if (pyStrip t).length < 10 then none
        else some ("positive".toList, 1))
      [(1, "short".toList), (2, "This phone is great and fast".toList)]
      [(1, "short".toList)] 1).2.2.2.1
      (fun t ht => by rw [if_neg ht]),
   (C10_short_reviews_silently_skipped (fun _ => some ("positive".toList, 1))
      (fun _ => some ("positive".toList, 1))
      [(1, "short".toList), (2, "This phone is great and fast".toList)]
      [(1, "short".toList)] 1).2.2.2.2
      (fun t ht => by
        rcases List.mem_singleton.mp ht with h
        cases h
        decide) 3⟩
